import Mathlib

/-!
Verification of the kabu-predictor core (trainer, predictor, evaluator, ranker)
against its natural-language specification.  The Python source is shallowly
embedded: pandas Series/DataFrame columns become lists over `Option ℚ`
(`none` models NaN), scalar float arithmetic becomes exact `ℚ` arithmetic,
and the floating-point square root (used only for annualisation factors and
standard deviations) is abstracted as an oracle `ℚ → ℚ` passed explicitly.
-/

namespace KabuPredictor

/-! ## config/settings.py -/

/-- Embeds `settings.PREDICTION_HORIZONS`: horizon (trading days) ↦ blend weight,
in dict iteration order (settings.py lines 101-106). -/
def PREDICTION_HORIZONS : List (Nat × ℚ) :=
  [(1, 3/10), (5, 3/10), (20, 1/4), (60, 3/20)]

/-- Embeds `settings.SCORE_WEIGHTS["prediction"]` (settings.py line 140). -/
def SCORE_WEIGHTS_prediction : ℚ := 1/2

/-- Embeds `settings.SCORE_WEIGHTS["fundamental"]` (settings.py line 141). -/
def SCORE_WEIGHTS_fundamental : ℚ := 1/4

/-- Embeds `settings.SCORE_WEIGHTS["risk_adjusted"]` (settings.py line 142). -/
def SCORE_WEIGHTS_risk_adjusted : ℚ := 1/4

/-- Embeds `settings.SCORE_WEIGHTS["overheat_penalty"]` (settings.py line 143),
read in ranker.py line 144 via `w.get("overheat_penalty", 0.30)`. -/
def SCORE_WEIGHTS_overheat_penalty : ℚ := 3/10

/-! ## ranker.calculate_composite_score (scoring/ranker.py lines 136-147)

The vectorised DataFrame arithmetic acts row-wise, so it is embedded as a
scalar function of one record's four inputs. -/

/-- The base score of one record: ranker.py lines 138-142. -/
def base_score (weighted_score fundamental_score risk_adjusted_score : ℚ) : ℚ :=
  SCORE_WEIGHTS_prediction * weighted_score +
  SCORE_WEIGHTS_fundamental * fundamental_score +
  SCORE_WEIGHTS_risk_adjusted * risk_adjusted_score

/-- One record's `composite_score`: ranker.py lines 144-147,
`base_score * (1 - penalty_factor * overheat_penalty)`. -/
def composite_score (weighted_score fundamental_score risk_adjusted_score
    overheat_penalty : ℚ) : ℚ :=
  base_score weighted_score fundamental_score risk_adjusted_score *
    (1 - SCORE_WEIGHTS_overheat_penalty * overheat_penalty)

/-! ## trainer.walk_forward_train: the walk-forward date split
(model/trainer.py lines 289-299). -/

/-- Embeds `test_days = min(60, total_days // 5)` (trainer.py line 293). -/
def testDays (total : Nat) : Nat := min 60 (total / 5)

/-- Embeds `val_days = min(20, total_days // 10)` (trainer.py line 294). -/
def valDays (total : Nat) : Nat := min 20 (total / 10)

/-- Embeds `train_end_idx = total_days - test_days - val_days` (trainer.py line 295);
the Python value is never negative because `test_days + val_days ≤ 3·total/10`,
so Nat subtraction is faithful. -/
def trainEndIdx (total : Nat) : Nat := total - testDays total - valDays total

/-- The train/validation/test date windows (trainer.py lines 297-299):
`dates[:train_end_idx]`, `dates[train_end_idx:train_end_idx+val_days]`,
`dates[train_end_idx+val_days:]`.  `dates` is the sorted unique date index;
the function slices it unconditionally — the source has no insufficiency
check and raises nothing on this path. -/
def walkForwardSplitDates (dates : List Nat) : List Nat × List Nat × List Nat :=
  let total := dates.length
  let tEnd := trainEndIdx total
  (dates.take tEnd,
   (dates.drop tEnd).take (valDays total),
   dates.drop (tEnd + valDays total))

/-! ## A column-oriented DataFrame model

A pandas DataFrame is modelled as an association list from column name to a
list of cell values; a cell is `Option ℚ`, with `none` standing for NaN. -/

/-- Column-oriented DataFrame: ordered list of (column name, cell values). -/
structure DF where
  cols : List (String × List (Option ℚ))
deriving DecidableEq

/-- The column names of a frame, in order. -/
def DF.colNames (df : DF) : List String := df.cols.map Prod.fst

/-- Read a column's values (`df[name]`); `[]` if the column is absent. -/
def DF.getCol (df : DF) (name : String) : List (Option ℚ) :=
  ((df.cols.find? (fun c => c.1 == name)).map Prod.snd).getD []

/-- Column assignment `df[name] = vals`: pandas overwrites an existing
column in place and appends a new one at the end. -/
def DF.setCol (df : DF) (name : String) (vals : List (Option ℚ)) : DF :=
  if name ∈ df.colNames then
    ⟨df.cols.map (fun c => if c.1 == name then (name, vals) else c)⟩
  else
    ⟨df.cols ++ [(name, vals)]⟩

/-! ## trainer.create_target_labels (model/trainer.py lines 34-64) -/

/-- Name of the binary label column for horizon `d`: `target_{d}d`. -/
def targetName (d : Nat) : String := "target_" ++ toString d ++ "d"

/-- Name of the forward-return column for horizon `d`: `future_return_{d}d`. -/
def futureName (d : Nat) : String := "future_return_" ++ toString d ++ "d"

/-- Embeds `result["Close"].shift(-days) / result["Close"] - 1` (trainer.py line 60):
cell `t` is `close[t+d]/close[t] - 1` when both closes exist, NaN otherwise
(in particular NaN on the final `d` positions, where `shift(-d)` is NaN). -/
def futureReturnCol (close : List (Option ℚ)) (d : Nat) : List (Option ℚ) :=
  (List.range close.length).map (fun t =>
    match close.getD t none, close.getD (t + d) none with
    | some c, some cf => some (cf / c - 1)
    | _, _ => none)

/-- Embeds `(future_return > 0).astype(int)` on one cell (trainer.py line 61).
pandas evaluates `NaN > 0` as `False`, so a NaN forward return is cast to
the integer label 0, not kept as NaN. -/
def gtZeroInt (x : Option ℚ) : Option ℚ :=
  match x with
  | some v => if 0 < v then some 1 else some 0
  | none => some 0

/-- Embeds `create_target_labels` (trainer.py lines 34-64): copies the frame and,
for each configured horizon, assigns the `target_{d}d` column and then the
`future_return_{d}d` column.  The `.copy()` at line 56 means the input frame
is never touched; the embedding is pure, so this is reflected by returning a
new frame built from the input. -/
def create_target_labels (df : DF) (horizons : List (Nat × ℚ)) : DF :=
  horizons.foldl (fun result hw =>
    let fr := futureReturnCol (result.getCol "Close") hw.1
    ((result.setCol (targetName hw.1) (fr.map gtZeroInt)).setCol
      (futureName hw.1) fr)) df

/-! ## ranker.calculate_overheat_penalty (scoring/ranker.py lines 24-76)

The detector takes the trailing close-price series (modelled NaN-free, as a
`List ℚ`).  Each indicator is computed exactly as in the source and only its
final (`iloc[-1]`) value is consumed, so each is embedded as the current
value, with `Option` capturing pandas NaN. -/

/-- The last `k` elements of a list (a pandas rolling window at `iloc[-1]`). -/
def lastN (k : Nat) (xs : List ℚ) : List ℚ := xs.drop (xs.length - k)

/-- Arithmetic mean of a list of rationals (0 on the empty list). -/
def listMean (xs : List ℚ) : ℚ := xs.sum / xs.length

/-- Python `max` over a nonempty list (the source guards against `[]`). -/
def pyMax : List ℚ → ℚ
  | [] => 0
  | h :: t => t.foldl max h

/-- The per-step gain series `delta.where(delta > 0, 0.0)` (ranker.py
line 49): position 0 (where `diff` is NaN, and `NaN > 0` is `False`) becomes
0.0, later positions are `max (close[i] - close[i-1]) 0`. -/
def gainSeries (close : List ℚ) : List ℚ :=
  0 :: (close.zipWith (fun prev cur => max (cur - prev) 0) close.tail)

/-- The per-step loss series `-delta.where(delta < 0, 0.0)` (ranker.py
line 50), same NaN-at-0 treatment. -/
def lossSeries (close : List ℚ) : List ℚ :=
  0 :: (close.zipWith (fun prev cur => max (prev - cur) 0) close.tail)

/-- Embeds `rsi.iloc[-1]` (ranker.py lines 48-53): Wilder-style RSI(14) from the
14-session rolling means of gains and losses; `none` models the NaN arising
from an incomplete rolling window or from `loss.replace(0, np.nan)` when the
window has no losses. -/
def currentRsi (close : List ℚ) : Option ℚ :=
  if close.length < 14 then none
  else
    let g := listMean (lastN 14 (gainSeries close))
    let l := listMean (lastN 14 (lossSeries close))
    if l = 0 then none
    else some (100 - 100 / (1 + g / l))

/-- The 25-session SMA deviation signal (ranker.py lines 60-62): `some`
of `(recent_close - sma25) / sma25` when the rolling window is complete and
`sma25 > 0`, else `none` (the source then skips indicator 2 entirely). -/
def smaDeviation (close : List ℚ) : Option ℚ :=
  if close.length < 25 then none
  else
    let sma25 := listMean (lastN 25 close)
    if 0 < sma25 then some ((close.getLastD 0 - sma25) / sma25)
    else none

/-- The 5-session trailing return signal (ranker.py lines 67-68): present
only when `len(close) >= 6`. -/
def fiveDayReturn (close : List ℚ) : Option ℚ :=
  if 6 ≤ close.length then
    some (close.getLastD 0 / close.getD (close.length - 6) 0 - 1)
  else none

/-- The `penalties` list built at ranker.py lines 45-70, in source order:
RSI (active past 75), SMA deviation (past +15%), 5-day return (past +10%),
each linearly rescaled over its excess range and capped at 1. -/
def overheatPenalties (rsi dev fd : Option ℚ) : List ℚ :=
  (match rsi with
   | some r => if 75 < r then [min 1 ((r - 75) / 25)] else []
   | none => []) ++
  (match dev with
   | some d => if 3/20 < d then [min 1 ((d - 3/20) / (1/4))] else []
   | none => []) ++
  (match fd with
   | some f => if 1/10 < f then [min 1 ((f - 1/10) / (1/5))] else []
   | none => [])

/-- Combination of a list of active penalties (ranker.py lines 72-76):
0 when none is active, else `max(penalties) * 0.7 + mean(penalties) * 0.3`. -/
def combinePenalties (penalties : List ℚ) : ℚ :=
  if penalties = [] then 0
  else pyMax penalties * (7/10) + listMean penalties * (3/10)

/-- The combined overheat penalty as a function of the three current
indicator values (ranker.py lines 45-76). -/
def overheatCombine (rsi dev fd : Option ℚ) : ℚ :=
  combinePenalties (overheatPenalties rsi dev fd)

/-- Embeds `calculate_overheat_penalty` (ranker.py lines 24-76): 0 for histories
under 30 sessions (line 39-40), else the combined indicator penalty. -/
def calculate_overheat_penalty (close : List ℚ) : ℚ :=
  if close.length < 30 then 0
  else overheatCombine (currentRsi close) (smaDeviation close)
    (fiveDayReturn close)

/-! ## evaluator.calculate_risk_adjusted_score
(model/evaluator.py lines 109-176)

Floating-point `np.sqrt` is abstracted as an oracle `sqrtQ : ℚ → ℚ`;
every branch condition of the source that compares a standard deviation
with 0 is embedded through the exact equivalent on the (rational) sum of
squared deviations, since for a sample of size ≥ 2 the float standard
deviation is 0 exactly when that sum is 0, and pandas `std` of a single
observation is NaN (for which both `== 0` and `> 0` are `False`). -/

/-- Python `min` over a nonempty list. -/
def pyMin : List ℚ → ℚ
  | [] => 0
  | h :: t => t.foldl min h

/-- Embeds `Series.pct_change().dropna()` on a NaN-free close series: the list of
`close[i]/close[i-1] - 1`, one element shorter than the input. -/
def pctChange (close : List ℚ) : List ℚ :=
  close.zipWith (fun prev cur => cur / prev - 1) close.tail

/-- Sum of squared deviations from the mean; for `n ≥ 2` the sample
standard deviation (pandas `std`, ddof=1) is 0 exactly when this is 0. -/
def devSq (xs : List ℚ) : ℚ :=
  (xs.map (fun x => (x - listMean xs) ^ 2)).sum

/-- Sample variance (ddof=1), the square of pandas `Series.std()`. -/
def sampleVar (xs : List ℚ) : ℚ := devSq xs / (xs.length - 1 : ℚ)

/-- Embeds `returns.std() == 0` as evaluated by Python floats: `False` on an
empty or singleton sample (the std is NaN), else exact zero variance. -/
def stdIsZero (xs : List ℚ) : Prop := 2 ≤ xs.length ∧ devSq xs = 0

instance (xs : List ℚ) : Decidable (stdIsZero xs) := by
  unfold stdIsZero; infer_instance

/-- Embeds `(1 + returns).cumprod()`: running products of `1 + r`. -/
def cumProd1p (rs : List ℚ) : List ℚ :=
  (rs.foldl (fun acc r => ((acc.1 * (1 + r)), acc.2 ++ [acc.1 * (1 + r)]))
    ((1 : ℚ), [])).2

/-- Embeds `cumulative.cummax()`: running maxima. -/
def cumMax : List ℚ → List ℚ
  | [] => []
  | h :: t => (t.foldl (fun acc x => ((max acc.1 x), acc.2 ++ [max acc.1 x]))
      (h, [h])).2

/-- Embeds `((cumulative - peak) / peak).min()` (evaluator.py lines 150-152). -/
def maxDrawdownOf (rs : List ℚ) : ℚ :=
  let cumulative := cumProd1p rs
  let peak := cumMax cumulative
  pyMin (cumulative.zipWith (fun c p => (c - p) / p) peak)

/-- Embeds `calculate_risk_adjusted_score` (evaluator.py lines 109-176), with the
float square root abstracted as `sqrtQ`.  The two neutral branches of the
source are explicit: price history shorter than the lookback (line 130),
and empty or zero-standard-deviation returns (line 136). -/
def calculate_risk_adjusted_score (sqrtQ : ℚ → ℚ) (lookback : Nat)
    (close : List ℚ) : ℚ :=
  if close.length < lookback then 1/2
  else
    let returns := pctChange (lastN lookback close)
    if returns = [] ∨ stdIsZero returns then 1/2
    else
      let retStd := sqrtQ (sampleVar returns)
      let sharpe := listMean returns / retStd * sqrtQ 252
      let downside := returns.filter (fun r => r < 0)
      let sortino :=
        if 0 < downside.length ∧ (2 ≤ downside.length ∧ 0 < devSq downside)
        then listMean returns / sqrtQ (sampleVar downside) * sqrtQ 252
        else sharpe * (3/2)
      let max_drawdown := maxDrawdownOf returns
      let win_rate := ((returns.filter (fun r => 0 < r)).length : ℚ) /
        returns.length
      let annual_vol := retStd * sqrtQ 252
      let vol_penalty := min 1 (max 0 ((annual_vol - 3/10) / (4/10)))
      let sharpe_score := max 0 (min 1 ((sharpe + 2) / 6))
      let sortino_score := max 0 (min 1 ((sortino + 2) / 8))
      let dd_score := max 0 (min 1 (1 + max_drawdown / (3/10)))
      let wr_score := max 0 (min 1 ((win_rate - 3/10) / (4/10)))
      let risk_score := (3/10) * sharpe_score + (1/5) * sortino_score +
        (1/5) * dd_score + (3/20) * wr_score - (3/20) * vol_penalty
      max 0 (min 1 risk_score)

/-! ## evaluator.evaluate_backtest (model/evaluator.py lines 15-106) -/

/-- The result dictionary of `evaluate_backtest`, with the fields
initialised at evaluator.py lines 38-48. -/
structure BacktestResult where
  total_trades : Nat
  winning_trades : Nat
  losing_trades : Nat
  win_rate : ℚ
  avg_return : ℚ
  total_return : ℚ
  sharpe_ratio : ℚ
  max_drawdown : ℚ
  daily_returns : List ℚ
deriving DecidableEq

/-- The initial (all-zero) result dictionary (evaluator.py lines 38-48). -/
def initBacktestResult : BacktestResult :=
  { total_trades := 0
    winning_trades := 0
    losing_trades := 0
    win_rate := 0
    avg_return := 0
    total_return := 0
    sharpe_ratio := 0
    max_drawdown := 0
    daily_returns := [] }

/-- The realised-returns DataFrame: a date index, ticker columns, and the
defined (non-NaN) cells as (date, ticker, value) entries. -/
structure ReturnsTable where
  dates : List Nat
  tickers : List String
  entries : List (Nat × String × ℚ)
deriving DecidableEq

/-- pandas `DataFrame.empty`: true when either axis has length 0. -/
def ReturnsTable.isEmpty (R : ReturnsTable) : Prop :=
  R.dates = [] ∨ R.tickers = []

instance (R : ReturnsTable) : Decidable R.isEmpty := by
  unfold ReturnsTable.isEmpty; infer_instance

/-- Embeds `actual_returns.loc[date, ticker] if date in actual_returns.index else
None` (evaluator.py line 70), with `none` covering both the absent date and
a NaN cell. -/
def ReturnsTable.lookup (R : ReturnsTable) (date : Nat) (ticker : String) :
    Option ℚ :=
  if date ∈ R.dates then
    (R.entries.find? (fun e => e.1 == date && e.2.1 == ticker)).map
      (fun e => e.2.2)
  else none

/-- One prediction row: (date, ticker, weighted_score). -/
abbrev PredRow := Nat × String × ℚ

/-- Embeds `day_preds.nlargest(top_n, "weighted_score")["ticker"]` (evaluator.py
line 64): stable descending sort by score, first `n` tickers. -/
def nlargestTickers (rows : List PredRow) (n : Nat) : List String :=
  ((rows.insertionSort (fun a b => b.2.2 ≤ a.2.2)).take n).map
    (fun r => r.2.1)

/-- One date's pass of the selection loop (evaluator.py lines 57-82),
threading the trade counters and the accumulated portfolio daily returns
`(total, winning, losing, daily_returns)`. -/
def backtestDay (R : ReturnsTable) (top_n : Nat) (rows : List PredRow)
    (acc : Nat × Nat × Nat × List ℚ) : Nat × Nat × Nat × List ℚ :=
  if rows.length = 1 then acc
  else
    let date := (rows.headD (0, "", 0)).1
    let top_tickers := nlargestTickers rows top_n
    let day_returns := top_tickers.foldl (fun day t =>
      if t ∈ R.tickers then
        match R.lookup date t with
        | some ret => (day.1 ++ [ret], day.2.1 + 1,
            (if 0 < ret then day.2.2.1 + 1 else day.2.2.1),
            (if 0 < ret then day.2.2.2 else day.2.2.2 + 1))
        | none => day
      else day) (([] : List ℚ), 0, 0, 0)
    let newDaily := if day_returns.1 = [] then acc.2.2.2
      else acc.2.2.2 ++ [listMean day_returns.1]
    (acc.1 + day_returns.2.1, acc.2.1 + day_returns.2.2.1,
     acc.2.2.1 + day_returns.2.2.2, newDaily)

/-- Embeds `evaluate_backtest` (evaluator.py lines 15-106): early return of the
zero-initialised result when either input table is empty; otherwise the
per-date top-N equal-weight portfolio aggregation followed by the summary
statistics of lines 84-104 (float `np.sqrt` abstracted as `sqrtQ`; the
`np.std(daily_returns) > 0` guard is embedded as positivity of the exact
population variance, its float equivalent). -/
def evaluate_backtest (sqrtQ : ℚ → ℚ) (predictions : List PredRow)
    (actual_returns : ReturnsTable) (top_n : Nat) : BacktestResult :=
  if predictions = [] ∨ actual_returns.isEmpty then initBacktestResult
  else
    let dates := ((predictions.map Prod.fst).eraseDups).insertionSort
      (fun a b => a ≤ b)
    let acc := dates.foldl (fun acc d =>
      backtestDay actual_returns top_n
        (predictions.filter (fun r => r.1 == d)) acc)
      ((0 : Nat), (0 : Nat), (0 : Nat), ([] : List ℚ))
    let daily := acc.2.2.2
    if daily = [] then
      { initBacktestResult with
        total_trades := acc.1
        winning_trades := acc.2.1
        losing_trades := acc.2.2.1 }
    else
      let popVar := devSq daily / daily.length
      { total_trades := acc.1
        winning_trades := acc.2.1
        losing_trades := acc.2.2.1
        win_rate := if 0 < acc.1 then (acc.2.1 : ℚ) / acc.1 else 0
        avg_return := listMean daily
        total_return := (daily.map (fun r => 1 + r)).prod - 1
        sharpe_ratio := if 0 < popVar then
            listMean daily / sqrtQ popVar * sqrtQ 252 else 0
        max_drawdown := maxDrawdownOf daily
        daily_returns := daily }

/-! ## predictor.predict_single_stock / predict_all_stocks
(model/predictor.py lines 20-152)

The latest feature row (`df.iloc[-1:]` restricted to the feature columns)
is modelled as an association list from feature name to `Option ℚ` cell.
A trained LightGBM booster is modelled as its trained feature-name list
(`model.feature_name()`, with `model.num_feature()` its length) together
with a black-box scoring function consuming the row's values positionally,
exactly how `Booster.predict` consumes a reordered frame. -/

/-- A trained per-horizon model artifact. -/
structure Model where
  features : List String
  predict : List ℚ → ℚ

/-- Value of feature `c` in a row, with pandas lookup semantics (first
matching column; the caller's frames have unique column names). -/
def colGetD (X : List (String × ℚ)) (c : String) : ℚ :=
  ((X.find? (fun p => p.1 == c)).map Prod.snd).getD 0

/-- Embeds `X = X.fillna(0)` (predictor.py line 68): NaN cells become 0. -/
def fillna0 (row : List (String × Option ℚ)) : List (String × ℚ) :=
  row.map (fun p => (p.1, p.2.getD 0))

/-- The schema-reconciliation step of predictor.py lines 79-96: triggered
only when the row's column count differs from `model.num_feature()`; it
then keeps the trained features present in the row (`matched_cols`),
zero-fills the absent trained features (`missing_cols`), and reindexes to
the model's trained order (`X_pred = X_pred[model_features]`).  When the
counts agree the row is passed through unchanged (`X_pred = X`). -/
def reconcile (X : List (String × ℚ)) (modelFeatures : List String) :
    List (String × ℚ) :=
  if X.length ≠ modelFeatures.length then
    let names := X.map Prod.fst
    let matched := modelFeatures.filter (fun c => c ∈ names)
    let missing := modelFeatures.filter (fun c => c ∉ names)
    let xmatched := matched.map (fun c => (c, colGetD X c))
    let xfilled := xmatched ++ missing.map (fun c => (c, (0 : ℚ)))
    modelFeatures.map (fun c => (c, colGetD xfilled c))
  else X

/-- The probability one model assigns to a (fillna-ed) row after
reconciliation (predictor.py line 98). -/
def horizonProb (X : List (String × ℚ)) (m : Model) : ℚ :=
  m.predict ((reconcile X m.features).map Prod.snd)

/-- One iteration of the horizon loop of predictor.py lines 73-100:
a horizon with no model is skipped (`continue`, line 74-75), otherwise the
per-horizon probability is recorded and `weighted_score += prob * weight`
(lines 98-100). -/
def predictLoopStep (X : List (String × ℚ)) (models : List (Nat × Model))
    (acc : List (Nat × ℚ) × ℚ) (hw : Nat × ℚ) : List (Nat × ℚ) × ℚ :=
  match models.find? (fun p => p.1 == hw.1) with
  | none => acc
  | some m =>
    let prob := horizonProb X m.2
    (acc.1 ++ [(hw.1, prob)], acc.2 + prob * hw.2)

/-- Embeds `predict_single_stock` (predictor.py lines 20-105) at the row level:
`none` models the empty-dict return `{}` of lines 49-51 when no model is
available; otherwise the loop of lines 73-100 over the configured horizons
accumulates the per-horizon probabilities and the weighted score. -/
def predict_single_stock (row : List (String × Option ℚ))
    (models : List (Nat × Model)) : Option (List (Nat × ℚ) × ℚ) :=
  if models.isEmpty then none
  else
    some (PREDICTION_HORIZONS.foldl (predictLoopStep (fillna0 row) models)
      ([], 0))

/-- Embeds `predict_all_stocks` (predictor.py lines 108-152): with no model
available it logs an error and returns an empty DataFrame (lines 127-129);
otherwise it collects the nonempty per-ticker predictions and sorts them
descending by `weighted_score`. -/
def predict_all_stocks (all_data : List (String × List (String × Option ℚ)))
    (models : List (Nat × Model)) :
    List (String × List (Nat × ℚ) × ℚ) :=
  if models.isEmpty then []
  else
    let results := all_data.filterMap (fun td =>
      (predict_single_stock td.2 models).map (fun r => (td.1, r)))
    if results.isEmpty then []
    else results.insertionSort (fun a b => b.2.2 ≤ a.2.2)

/-- A trivial model artifact (no features, constant probability 0), used
as a concrete instance in witnesses. -/
def constModel : Model := ⟨[], fun _ => 0⟩

/-- The names of the label columns `create_target_labels` adds, in
assignment order. -/
def labelNames : List (Nat × ℚ) → List String
  | [] => []
  | hw :: rest => targetName hw.1 :: futureName hw.1 :: labelNames rest

/-- The label columns `create_target_labels` appends for a given close
column, in assignment order (closed form of the fold, used to state the
frame-effect theorem). -/
def labelColsSpec (close : List (Option ℚ)) :
    List (Nat × ℚ) → List (String × List (Option ℚ))
  | [] => []
  | hw :: rest =>
    (targetName hw.1, (futureReturnCol close hw.1).map gtZeroInt) ::
    (futureName hw.1, futureReturnCol close hw.1) ::
    labelColsSpec close rest

/-! ## Theorems -/

/-- Claim C2: for every record, `composite_score` equals
`(0.50·weighted + 0.25·fundamental + 0.25·risk) × (1 − 0.30·overheat)`
under the default weights; holding the three component scores fixed and
non-negative, it is monotonically non-increasing in the overheat penalty,
equals the base weighted sum exactly when the penalty is 0, and is never
negative for a penalty in [0,1]. -/
theorem composite_score_spec (ws fs rs : ℚ) :
    (∀ p, composite_score ws fs rs p =
      (1/2 * ws + 1/4 * fs + 1/4 * rs) * (1 - 3/10 * p)) ∧
    (0 ≤ ws → 0 ≤ fs → 0 ≤ rs →
      (∀ p1 p2, p1 ≤ p2 →
        composite_score ws fs rs p2 ≤ composite_score ws fs rs p1) ∧
      composite_score ws fs rs 0 = base_score ws fs rs ∧
      (∀ p, 0 ≤ p → p ≤ 1 → 0 ≤ composite_score ws fs rs p)) := by
  have hbase : ∀ p, composite_score ws fs rs p =
      (1/2 * ws + 1/4 * fs + 1/4 * rs) * (1 - 3/10 * p) := by
    intro p
    simp only [composite_score, base_score, SCORE_WEIGHTS_prediction,
      SCORE_WEIGHTS_fundamental, SCORE_WEIGHTS_risk_adjusted,
      SCORE_WEIGHTS_overheat_penalty]
  refine ⟨hbase, fun hws hfs hrs => ⟨fun p1 p2 h12 => ?_, ?_, fun p h0 h1 => ?_⟩⟩
  · rw [hbase, hbase]
    have hb : 0 ≤ 1/2 * ws + 1/4 * fs + 1/4 * rs := by positivity
    nlinarith
  · rw [hbase]
    simp only [base_score, SCORE_WEIGHTS_prediction,
      SCORE_WEIGHTS_fundamental, SCORE_WEIGHTS_risk_adjusted]
    ring
  · rw [hbase]
    have hb : 0 ≤ 1/2 * ws + 1/4 * fs + 1/4 * rs := by positivity
    nlinarith

/-- Witness for C2 at `(ws, fs, rs) = (4/5, 1/2, 1/2)`. -/
theorem composite_score_spec_witness :
    composite_score (4/5) (1/2) (1/2) 1 ≤
      composite_score (4/5) (1/2) (1/2) (1/2) ∧
    composite_score (4/5) (1/2) (1/2) 0 = base_score (4/5) (1/2) (1/2) ∧
    0 ≤ composite_score (4/5) (1/2) (1/2) 1 :=
  ⟨((composite_score_spec (4/5) (1/2) (1/2)).2 (by norm_num) (by norm_num)
      (by norm_num)).1 (1/2) 1 (by norm_num),
   ((composite_score_spec (4/5) (1/2) (1/2)).2 (by norm_num) (by norm_num)
      (by norm_num)).2.1,
   ((composite_score_spec (4/5) (1/2) (1/2)).2 (by norm_num) (by norm_num)
      (by norm_num)).2.2 1 (by norm_num) (by norm_num)⟩

/-- Claim C1 (code bug): on `Close = [1, 2]` with horizon 1, the label
column produced by `create_target_labels` is `[1, 0]` — the final row
carries the *defined* label 0 (pandas evaluates `NaN > 0` as `False` and
casts it to `int` 0), whereas the spec requires `target_1d` to be
NaN/absent on exactly the last row.  The forward return itself is computed
correctly (`[1.0, NaN]`). -/
theorem create_target_labels_imputes_tail :
    (create_target_labels ⟨[("Close", [some 1, some 2])]⟩
      [(1, 1)]).getCol "target_1d" = [some 1, some 0] ∧
    (create_target_labels ⟨[("Close", [some 1, some 2])]⟩
      [(1, 1)]).getCol "future_return_1d" = [some 1, none] := by
  have hfr : futureReturnCol [some 1, some 2] 1 = [some 1, none] := by
    norm_num [futureReturnCol, List.range_succ]
  have hclose : (DF.mk [("Close", [some 1, some 2])]).getCol "Close" =
      [some 1, some 2] := rfl
  simp only [create_target_labels, List.foldl_cons, List.foldl_nil, hclose,
    hfr]
  constructor <;> decide

/-- Counterexample to claim C7: with no trained model available,
`predict_single_stock` returns the empty dict (modelled `none`, lines
49-51) and `predict_all_stocks` returns an empty DataFrame (modelled `[]`,
lines 127-129) — both are ordinary returns; no `ModelUnavailableError`
exists anywhere in the code and nothing is raised on this path. -/
theorem predict_no_model_counterexample :
    predict_single_stock [("sma_5", some 1)] [] = none ∧
    predict_all_stocks [("7203.T", [("sma_5", some 1)])] [] = [] :=
  ⟨rfl, rfl⟩

/-- Claim C7 as amended: when no trained model is available for any
horizon, both prediction entry points log an error and return an empty
result to the caller (`{}` from `predict_single_stock`, an empty DataFrame
from `predict_all_stocks`); no exception propagates. -/
theorem predict_no_model_returns_empty
    (row : List (String × Option ℚ))
    (all_data : List (String × List (String × Option ℚ))) :
    predict_single_stock row [] = none ∧
    predict_all_stocks all_data [] = [] :=
  ⟨rfl, rfl⟩

/-- Counterexample to claim C8: a pooled panel whose unique-date count
makes the training remainder empty (only `total = 0` can — see the amended
theorem) is *not* rejected: the split is computed unconditionally and
returns three empty windows; no `InsufficientDataError` exists in the
code. -/
theorem walk_forward_no_insufficiency_check :
    walkForwardSplitDates [] = ([], [], []) := rfl

/-- Claim C8 as amended: the walk-forward split performs no insufficiency
check and never fails; the three windows always partition the unique
dates, and for every panel with at least one unique date the training
remainder `total − min(60, total/5) − min(20, total/10)` is provably
strictly positive, so the failure condition hypothesised by the claim is
satisfiable only by a panel with zero unique dates, on which the code
still proceeds (returning empty windows). -/
theorem walk_forward_split_spec (dates : List Nat) :
    ((walkForwardSplitDates dates).1.length +
      ((walkForwardSplitDates dates).2.1.length +
        (walkForwardSplitDates dates).2.2.length) = dates.length) ∧
    (0 < dates.length →
      0 < trainEndIdx dates.length ∧ (walkForwardSplitDates dates).1 ≠ []) := by
  have hle : trainEndIdx dates.length ≤ dates.length := by
    simp only [trainEndIdx]; omega
  constructor
  · simp only [walkForwardSplitDates, List.length_take, List.length_drop,
      List.length_take, trainEndIdx, testDays, valDays]
    omega
  · intro hpos
    have htr : 0 < trainEndIdx dates.length := by
      simp only [trainEndIdx, testDays, valDays]
      omega
    refine ⟨htr, ?_⟩
    have : (walkForwardSplitDates dates).1.length =
        trainEndIdx dates.length := by
      simp only [walkForwardSplitDates, List.length_take]
      omega
    intro hnil
    rw [hnil] at this
    simp at this
    omega

/-- Witness for C8's amended theorem at `dates = [1]`: the remainder is 1
and the training window is the whole (singleton) date list. -/
theorem walk_forward_split_spec_witness :
    0 < trainEndIdx ([1] : List Nat).length ∧
      (walkForwardSplitDates [1]).1 ≠ [] :=
  (walk_forward_split_spec [1]).2 (by decide)

/-- Claim C9: whenever the predictions table or the realised-returns table
is empty, `evaluate_backtest` returns (it does not raise) the result whose
every metric is its zero initial value and whose `daily_returns` is empty
(evaluator.py lines 38-51). -/
theorem evaluate_backtest_empty_inputs (sqrtQ : ℚ → ℚ)
    (predictions : List PredRow) (actual_returns : ReturnsTable)
    (top_n : Nat) (h : predictions = [] ∨ actual_returns.isEmpty) :
    evaluate_backtest sqrtQ predictions actual_returns top_n =
      { total_trades := 0
        winning_trades := 0
        losing_trades := 0
        win_rate := 0
        avg_return := 0
        total_return := 0
        sharpe_ratio := 0
        max_drawdown := 0
        daily_returns := [] } := by
  unfold evaluate_backtest
  rw [if_pos h]
  rfl

/-- Witness for C9: an empty predictions table against a nonempty returns
table, and a nonempty predictions table against a column-less returns
table, both produce the all-zero result. -/
theorem evaluate_backtest_empty_inputs_witness :
    evaluate_backtest (fun _ => 0) [] ⟨[1], ["A"], [(1, "A", 1/100)]⟩ 10 =
      { total_trades := 0
        winning_trades := 0
        losing_trades := 0
        win_rate := 0
        avg_return := 0
        total_return := 0
        sharpe_ratio := 0
        max_drawdown := 0
        daily_returns := [] } ∧
    evaluate_backtest (fun _ => 0) [(1, "A", 1/2)] ⟨[1], [], []⟩ 10 =
      { total_trades := 0
        winning_trades := 0
        losing_trades := 0
        win_rate := 0
        avg_return := 0
        total_return := 0
        sharpe_ratio := 0
        max_drawdown := 0
        daily_returns := [] } :=
  ⟨evaluate_backtest_empty_inputs _ _ _ _ (Or.inl rfl),
   evaluate_backtest_empty_inputs _ _ _ _ (Or.inr (Or.inr rfl))⟩

/-- Claim C4: `calculate_risk_adjusted_score` returns exactly the neutral
value 0.5 both for a price history shorter than the lookback window
(explicit branch, evaluator.py lines 130-131) and for returns with zero
standard deviation — or none at all — over the window (explicit branch,
lines 136-137); neither is a division-by-zero fallback. -/
theorem risk_adjusted_score_neutral (sqrtQ : ℚ → ℚ) (lookback : Nat)
    (close : List ℚ) :
    (close.length < lookback →
      calculate_risk_adjusted_score sqrtQ lookback close = 1/2) ∧
    (pctChange (lastN lookback close) = [] ∨
        stdIsZero (pctChange (lastN lookback close)) →
      calculate_risk_adjusted_score sqrtQ lookback close = 1/2) := by
  constructor
  · intro h
    unfold calculate_risk_adjusted_score
    rw [if_pos h]
  · intro h
    by_cases hl : close.length < lookback
    · unfold calculate_risk_adjusted_score
      rw [if_pos hl]
    · unfold calculate_risk_adjusted_score
      rw [if_neg hl]
      simp only []
      rw [if_pos h]

/-- Witness for C4: a 1-session history against the default 60-session
lookback, and a constant 3-session history against a 3-session lookback
(zero-variance returns), both score exactly 1/2. -/
theorem risk_adjusted_score_neutral_witness :
    calculate_risk_adjusted_score (fun _ => 0) 60 [1] = 1/2 ∧
    calculate_risk_adjusted_score (fun _ => 0) 3 [2, 2, 2] = 1/2 :=
  ⟨(risk_adjusted_score_neutral _ 60 [1]).1 (by norm_num),
   (risk_adjusted_score_neutral _ 3 [2, 2, 2]).2 (by
      refine Or.inr ⟨by norm_num [pctChange, lastN], ?_⟩
      norm_num [pctChange, lastN, devSq, listMean])⟩

/-- Lemma: `List.foldl max` is monotone in its initial value. -/
lemma foldl_max_mono (l : List ℚ) :
    ∀ {a b : ℚ}, a ≤ b → l.foldl max a ≤ l.foldl max b := by
  induction l with
  | nil => intro a b h; simpa using h
  | cons c t ih => intro a b h; simpa using ih (max_le_max h le_rfl)

/-- Lemma: `pyMax` is monotone in the head of a list. -/
lemma pyMax_cons_mono {p1 p2 : ℚ} (rest : List ℚ) (h : p1 ≤ p2) :
    pyMax (p1 :: rest) ≤ pyMax (p2 :: rest) := by
  simp only [pyMax]
  exact foldl_max_mono rest h

/-- Lemma: `listMean` is monotone in the head of a list. -/
lemma listMean_cons_mono {p1 p2 : ℚ} (rest : List ℚ) (h : p1 ≤ p2) :
    listMean (p1 :: rest) ≤ listMean (p2 :: rest) := by
  simp only [listMean, List.sum_cons, List.length_cons]
  have hc : (0 : ℚ) < ((rest.length + 1 : Nat) : ℚ) := by positivity
  exact (div_le_div_iff_of_pos_right hc).mpr (by linarith)

/-- Lemma: `combinePenalties` is monotone in the head of a penalties list. -/
lemma combinePenalties_cons_mono {p1 p2 : ℚ} (rest : List ℚ)
    (h : p1 ≤ p2) :
    combinePenalties (p1 :: rest) ≤ combinePenalties (p2 :: rest) := by
  simp only [combinePenalties, if_neg (List.cons_ne_nil _ _)]
  have h7 : (0 : ℚ) ≤ 7/10 := by norm_num
  have h3 : (0 : ℚ) ≤ 3/10 := by norm_num
  exact add_le_add (mul_le_mul_of_nonneg_right (pyMax_cons_mono rest h) h7)
    (mul_le_mul_of_nonneg_right (listMean_cons_mono rest h) h3)

/-- Claim C3: the overheat penalty is exactly 0 for every price history of
fewer than 30 sessions regardless of price action (ranker.py lines 39-40);
for histories of at least 30 sessions it is the combination of the three
current indicator signals, and — holding the other inputs fixed —
increasing the current RSI(14) value above 75 never decreases it. -/
theorem overheat_penalty_spec :
    (∀ close : List ℚ, close.length < 30 →
      calculate_overheat_penalty close = 0) ∧
    (∀ close : List ℚ, 30 ≤ close.length →
      calculate_overheat_penalty close =
        overheatCombine (currentRsi close) (smaDeviation close)
          (fiveDayReturn close)) ∧
    (∀ (dev fd : Option ℚ) (r1 r2 : ℚ), 75 < r1 → r1 ≤ r2 →
      overheatCombine (some r1) dev fd ≤ overheatCombine (some r2) dev fd) := by
  refine ⟨fun close h => ?_, fun close h => ?_, fun dev fd r1 r2 h1 h12 => ?_⟩
  · unfold calculate_overheat_penalty
    rw [if_pos h]
  · unfold calculate_overheat_penalty
    rw [if_neg (by omega)]
  · have h2 : (75 : ℚ) < r2 := lt_of_lt_of_le h1 h12
    have e1 : overheatPenalties (some r1) dev fd =
        min 1 ((r1 - 75) / 25) :: overheatPenalties none dev fd := by
      simp only [overheatPenalties, if_pos h1, List.singleton_append,
        List.nil_append, List.cons_append]
    have e2 : overheatPenalties (some r2) dev fd =
        min 1 ((r2 - 75) / 25) :: overheatPenalties none dev fd := by
      simp only [overheatPenalties, if_pos h2, List.singleton_append,
        List.nil_append, List.cons_append]
    have hp : min 1 ((r1 - 75) / 25) ≤ min 1 ((r2 - 75) / 25) := by
      refine min_le_min le_rfl ?_
      have h25 : (0 : ℚ) < 25 := by norm_num
      exact (div_le_div_iff_of_pos_right h25).mpr (by linarith)
    unfold overheatCombine
    rw [e1, e2]
    exact combinePenalties_cons_mono _ hp

/-- Witness for C3: a 29-session history gets penalty 0, and raising RSI
from 80 to 90 (other signals inactive) does not decrease the combined
penalty. -/
theorem overheat_penalty_spec_witness :
    calculate_overheat_penalty (List.replicate 29 100) = 0 ∧
    overheatCombine (some 80) none none ≤ overheatCombine (some 90) none none :=
  ⟨overheat_penalty_spec.1 (List.replicate 29 100) (by norm_num),
   overheat_penalty_spec.2.2 none none 80 90 (by norm_num) (by norm_num)⟩

/-- The horizon loop of `predict_single_stock` in closed form: the
recorded probabilities and the accumulated weighted score over exactly the
horizons that have a model. -/
lemma predict_foldl_spec (X : List (String × ℚ))
    (models : List (Nat × Model)) (hs : List (Nat × ℚ)) :
    ∀ acc : List (Nat × ℚ) × ℚ,
      hs.foldl (predictLoopStep X models) acc =
        (acc.1 ++ hs.filterMap (fun hw =>
          (models.find? (fun p => p.1 == hw.1)).map
            (fun p => (hw.1, horizonProb X p.2))),
         acc.2 + (hs.filterMap (fun hw =>
          (models.find? (fun p => p.1 == hw.1)).map
            (fun p => horizonProb X p.2 * hw.2))).sum) := by
  induction hs with
  | nil => intro acc; simp
  | cons hw t ih =>
    intro acc
    rw [List.foldl_cons, ih]
    cases hfind : models.find? (fun p => p.1 == hw.1) with
    | none => simp [predictLoopStep, hfind, List.filterMap_cons]
    | some m =>
      simp [predictLoopStep, hfind, List.filterMap_cons,
        List.append_assoc, add_assoc]

/-- Claim C5: `predict_single_stock`'s weighted score is the sum, over
exactly the horizons that have an available model, of
`weight_h · probability_h`; weights of missing horizons are simply absent
(no renormalization), so the sum of the weights actually used can be
strictly below 1 (e.g. with only the 1-day model: 0.30 < 1). -/
theorem weighted_score_no_renormalization :
    (∀ (row : List (String × Option ℚ)) (models : List (Nat × Model)),
      models ≠ [] →
      predict_single_stock row models = some
        (PREDICTION_HORIZONS.filterMap (fun hw =>
          (models.find? (fun p => p.1 == hw.1)).map
            (fun p => (hw.1, horizonProb (fillna0 row) p.2))),
         (PREDICTION_HORIZONS.filterMap (fun hw =>
          (models.find? (fun p => p.1 == hw.1)).map
            (fun p => horizonProb (fillna0 row) p.2 * hw.2))).sum)) ∧
    (∃ models : List (Nat × Model), models ≠ [] ∧
      ((PREDICTION_HORIZONS.filter (fun hw =>
        (models.find? (fun p => p.1 == hw.1)).isSome)).map Prod.snd).sum
        < 1) := by
  constructor
  · intro row models hne
    unfold predict_single_stock
    rw [if_neg (by simp [hne]), predict_foldl_spec]
    simp
  · refine ⟨[(1, constModel)], by simp, ?_⟩
    simp [PREDICTION_HORIZONS, List.find?, List.filter]
    norm_num

/-- Witness for C5: one available model (horizon 1) on an empty feature
row yields exactly the 1-day term `0.30 · 0`, with used weight 0.30. -/
theorem weighted_score_no_renormalization_witness :
    predict_single_stock [] [(1, constModel)] = some ([(1, 0)], 0) := by
  rw [weighted_score_no_renormalization.1 [] [(1, constModel)]
    (by simp)]
  simp [PREDICTION_HORIZONS, List.find?, List.filterMap_cons,
    horizonProb, constModel, fillna0, reconcile]

/-- A feature absent from a row reads as the default 0. -/
lemma colGetD_not_mem (X : List (String × ℚ)) (c : String)
    (h : c ∉ X.map Prod.fst) : colGetD X c = 0 := by
  induction X with
  | nil => rfl
  | cons p t ih =>
    simp only [List.map_cons, List.mem_cons, not_or] at h
    have hb : (p.1 == c) = false :=
      beq_eq_false_iff_ne.mpr (fun he => h.1 he.symm)
    simp only [colGetD, List.find?_cons, hb]
    exact ih h.2

/-- Lemma: `find?` by key over a keyed map returns the keyed entry. -/
lemma find_keyed_map (l : List String) (g : String → ℚ) (c : String) :
    (l.map (fun x => (x, g x))).find? (fun p => p.1 == c) =
      if c ∈ l then some (c, g c) else none := by
  induction l with
  | nil => rfl
  | cons a t ih =>
    by_cases hac : a = c
    · subst hac
      simp [List.find?_cons]
    · have hb : (a == c) = false := by simpa using hac
      simp [List.find?_cons, hb, ih, List.mem_cons, Ne.symm hac]

/-- Lemma: `colGetD` over a keyed map reads the keyed value. -/
lemma colGetD_keyed (l : List String) (g : String → ℚ) (c : String) :
    colGetD (l.map (fun x => (x, g x))) c = if c ∈ l then g c else 0 := by
  unfold colGetD
  rw [find_keyed_map]
  by_cases h : c ∈ l <;> simp [h]

/-- Lemma: `colGetD` over an appended row reads the left part first. -/
lemma colGetD_append (A B : List (String × ℚ)) (c : String) :
    colGetD (A ++ B) c =
      if (A.find? (fun p => p.1 == c)).isSome then colGetD A c
      else colGetD B c := by
  unfold colGetD
  rw [List.find?_append]
  cases h : A.find? (fun p => p.1 == c) <;> simp [h]

/-- The matched-then-zero-filled row of predictor.py lines 88-93 reads, at
every trained feature, the row's value when present and 0 otherwise. -/
lemma colGetD_filled (X : List (String × ℚ)) (mf : List String)
    (c : String) (hc : c ∈ mf) :
    colGetD ((mf.filter (fun c' => c' ∈ X.map Prod.fst)).map
        (fun c' => (c', colGetD X c')) ++
      (mf.filter (fun c' => c' ∉ X.map Prod.fst)).map
        (fun c' => (c', (0 : ℚ)))) c = colGetD X c := by
  rw [colGetD_append]
  by_cases hmem : c ∈ X.map Prod.fst
  · have hcm : c ∈ mf.filter (fun c' => c' ∈ X.map Prod.fst) :=
      List.mem_filter.mpr ⟨hc, by simpa using hmem⟩
    have hsome : (((mf.filter (fun c' => c' ∈ X.map Prod.fst)).map
        (fun c' => (c', colGetD X c'))).find?
          (fun p => p.1 == c)).isSome := by
      rw [find_keyed_map, if_pos hcm]
      rfl
    rw [if_pos hsome, colGetD_keyed, if_pos hcm]
  · have hcm1 : c ∉ mf.filter (fun c' => c' ∈ X.map Prod.fst) := by
      intro hx
      exact hmem (by simpa using (List.mem_filter.mp hx).2)
    have hcm2 : c ∈ mf.filter (fun c' => c' ∉ X.map Prod.fst) :=
      List.mem_filter.mpr ⟨hc, by simpa using hmem⟩
    rw [if_neg (by rw [find_keyed_map, if_neg hcm1]; simp),
      colGetD_keyed, if_pos hcm2, colGetD_not_mem X c hmem]

/-- Claim C6 counterexample: a row whose feature *names* disagree with the
model's trained list but whose feature *count* matches is passed through
unreconciled (predictor.py line 81 compares only the counts), instead of
being intersected/zero-filled/reordered to `[("b", 0)]` as the claim
requires for every name mismatch. -/
theorem reconcile_count_trigger_counterexample :
    reconcile [("a", 1)] ["b"] = [("a", 1)] ∧
    reconcile [("a", 1)] ["b"] ≠ [("b", 0)] := by
  constructor
  · rfl
  · decide

/-- Claim C6 as amended: the reconciliation of predictor.py lines 79-96 is
triggered by a mismatch in feature *count*, not name set.  When the row's
column count differs from the model's trained feature count, the row is
rebuilt in the model's trained order with every trained feature read from
the row when present and zero-filled otherwise (so inference cannot crash
on that path); when the counts coincide, the row is passed to the model
unchanged even if the names differ. -/
theorem reconcile_spec (X : List (String × ℚ)) (mf : List String) :
    (X.length ≠ mf.length →
      reconcile X mf = mf.map (fun c => (c, colGetD X c))) ∧
    (X.length = mf.length → reconcile X mf = X) := by
  constructor
  · intro h
    simp only [reconcile, if_pos h]
    exact List.map_congr_left (fun c hc => by rw [colGetD_filled X mf c hc])
  · intro h
    simp only [reconcile, if_neg (show ¬ X.length ≠ mf.length by omega)]

/-- Witness for C6's amended theorem: a 2-column row against a 3-feature
model is rebuilt in model order with zero fill; an equal-count row passes
through unchanged. -/
theorem reconcile_spec_witness :
    reconcile [("a", 1), ("c", 2)] ["a", "b", "d"] =
      [("a", 1), ("b", 0), ("d", 0)] ∧
    reconcile [("a", 1)] ["z"] = [("a", 1)] :=
  ⟨((reconcile_spec [("a", 1), ("c", 2)] ["a", "b", "d"]).1
      (by decide)).trans (by decide),
   (reconcile_spec [("a", 1)] ["z"]).2 rfl⟩

/-- Lemma: `futureReturnCol` has one cell per input row. -/
lemma futureReturnCol_length (close : List (Option ℚ)) (d : Nat) :
    (futureReturnCol close d).length = close.length := by
  simp [futureReturnCol]

/-- Assigning a fresh column appends it. -/
lemma setCol_fresh (df : DF) (name : String) (vals : List (Option ℚ))
    (h : name ∉ df.colNames) :
    df.setCol name vals = ⟨df.cols ++ [(name, vals)]⟩ := by
  unfold DF.setCol
  rw [if_neg h]

/-- Reading a column present in the left part of an appended frame ignores
the appended columns. -/
lemma getCol_append_of_mem (df : DF) (L : List (String × List (Option ℚ)))
    (name : String) (h : name ∈ df.colNames) :
    (DF.mk (df.cols ++ L)).getCol name = df.getCol name := by
  unfold DF.getCol
  rw [List.find?_append]
  have hs : (df.cols.find? (fun c => c.1 == name)).isSome := by
    rw [List.find?_isSome]
    obtain ⟨p, hp, he⟩ := List.mem_map.mp h
    exact ⟨p, hp, by simp [he]⟩
  cases hf : df.cols.find? (fun c => c.1 == name) with
  | none => rw [hf] at hs; simp at hs
  | some v => simp [hf]

/-- Both label names of a configured horizon occur in `labelNames`. -/
lemma mem_labelNames {hw : Nat × ℚ} : ∀ {hs : List (Nat × ℚ)}, hw ∈ hs →
    targetName hw.1 ∈ labelNames hs ∧ futureName hw.1 ∈ labelNames hs := by
  intro hs
  induction hs with
  | nil => intro h; cases h
  | cons a t ih =>
    intro h
    rcases List.mem_cons.mp h with he | ht
    · subst he; simp [labelNames]
    · have hm := ih ht
      simp [labelNames, hm.1, hm.2]

/-- One step of the `create_target_labels` fold. -/
lemma create_target_labels_cons (df : DF) (hw : Nat × ℚ)
    (rest : List (Nat × ℚ)) :
    create_target_labels df (hw :: rest) =
      create_target_labels
        ((df.setCol (targetName hw.1)
          ((futureReturnCol (df.getCol "Close") hw.1).map gtZeroInt)).setCol
          (futureName hw.1) (futureReturnCol (df.getCol "Close") hw.1))
        rest := rfl

/-- Closed form of `create_target_labels`: when the label names are fresh
and mutually distinct and the frame has a close column, the fold appends
exactly the label columns of `labelColsSpec`. -/
lemma create_target_labels_cols (horizons : List (Nat × ℚ)) :
    ∀ df : DF, (∀ l ∈ labelNames horizons, l ∉ df.colNames) →
      (labelNames horizons).Nodup → "Close" ∈ df.colNames →
      (create_target_labels df horizons).cols =
        df.cols ++ labelColsSpec (df.getCol "Close") horizons := by
  induction horizons with
  | nil =>
    intro df h1 h2 h3
    simp [create_target_labels, labelColsSpec]
  | cons hw rest ih =>
    intro df h1 h2 h3
    have htn : targetName hw.1 ∉ df.colNames := h1 _ (by simp [labelNames])
    have hfn : futureName hw.1 ∉ df.colNames := h1 _ (by simp [labelNames])
    have h2a : targetName hw.1 ∉ futureName hw.1 :: labelNames rest ∧
        (futureName hw.1 :: labelNames rest).Nodup :=
      List.nodup_cons.mp (by simpa [labelNames] using h2)
    have htf : targetName hw.1 ≠ futureName hw.1 := by
      intro he; exact h2a.1 (by simp [he])
    have htr : targetName hw.1 ∉ labelNames rest := by
      intro hx; exact h2a.1 (by simp [hx])
    have h2b := List.nodup_cons.mp h2a.2
    have e1 : df.setCol (targetName hw.1)
        ((futureReturnCol (df.getCol "Close") hw.1).map gtZeroInt) =
        ⟨df.cols ++ [(targetName hw.1,
          (futureReturnCol (df.getCol "Close") hw.1).map gtZeroInt)]⟩ :=
      setCol_fresh df _ _ htn
    have hfn0 : futureName hw.1 ∉ df.cols.map Prod.fst := hfn
    have hfn1 : futureName hw.1 ∉ (DF.mk (df.cols ++ [(targetName hw.1,
        (futureReturnCol (df.getCol "Close") hw.1).map gtZeroInt)])).colNames := by
      simp [DF.colNames, List.mem_append, hfn0, Ne.symm htf]
    have e2 : (df.setCol (targetName hw.1)
        ((futureReturnCol (df.getCol "Close") hw.1).map gtZeroInt)).setCol
          (futureName hw.1) (futureReturnCol (df.getCol "Close") hw.1) =
        ⟨df.cols ++ [(targetName hw.1,
            (futureReturnCol (df.getCol "Close") hw.1).map gtZeroInt),
          (futureName hw.1, futureReturnCol (df.getCol "Close") hw.1)]⟩ := by
      rw [e1, setCol_fresh _ _ _ (by rw [← e1]; exact (e1 ▸ hfn1))]
      simp
    have hclose2 : ((df.setCol (targetName hw.1)
        ((futureReturnCol (df.getCol "Close") hw.1).map gtZeroInt)).setCol
          (futureName hw.1)
          (futureReturnCol (df.getCol "Close") hw.1)).getCol "Close" =
        df.getCol "Close" := by
      rw [e2]
      exact getCol_append_of_mem df _ _ h3
    have h1r : ∀ l ∈ labelNames rest,
        l ∉ ((df.setCol (targetName hw.1)
          ((futureReturnCol (df.getCol "Close") hw.1).map gtZeroInt)).setCol
            (futureName hw.1)
            (futureReturnCol (df.getCol "Close") hw.1)).colNames := by
      intro l hl
      have hld0 : l ∉ df.cols.map Prod.fst := h1 l (by simp [labelNames, hl])
      have hlt : l ≠ targetName hw.1 := fun he => htr (he ▸ hl)
      have hlf : l ≠ futureName hw.1 := fun he => h2b.1 (he ▸ hl)
      rw [e2]
      simp [DF.colNames, List.mem_append, hld0, hlt, hlf]
    have h3r : "Close" ∈ ((df.setCol (targetName hw.1)
        ((futureReturnCol (df.getCol "Close") hw.1).map gtZeroInt)).setCol
          (futureName hw.1)
          (futureReturnCol (df.getCol "Close") hw.1)).colNames := by
      have h30 : "Close" ∈ df.cols.map Prod.fst := h3
      rw [e2]
      simp [DF.colNames, List.mem_append, h30]
    rw [create_target_labels_cons, ih _ h1r h2b.2 h3r, hclose2, e2]
    simp [labelColsSpec, List.append_assoc]

/-- Claim C10: `create_target_labels` never mutates its input (it copies
the frame at trainer.py line 56 and only assigns to the copy; the
embedding is pure and the original columns reappear unchanged in the
output): for every frame with a close column and fresh, mutually distinct
label names, the returned frame is exactly the original columns followed
by the two added columns per configured horizon, every original column
reads back unchanged, exactly `2·|horizons|` columns are added, and each
added column has one cell per original row of the close column. -/
theorem create_target_labels_frame_spec (df : DF)
    (horizons : List (Nat × ℚ))
    (h1 : ∀ l ∈ labelNames horizons, l ∉ df.colNames)
    (h2 : (labelNames horizons).Nodup)
    (h3 : "Close" ∈ df.colNames) :
    (create_target_labels df horizons).cols =
      df.cols ++ labelColsSpec (df.getCol "Close") horizons ∧
    (∀ name ∈ df.colNames,
      (create_target_labels df horizons).getCol name = df.getCol name) ∧
    (labelColsSpec (df.getCol "Close") horizons).length =
      2 * horizons.length ∧
    (∀ col ∈ labelColsSpec (df.getCol "Close") horizons,
      col.2.length = (df.getCol "Close").length) := by
  have hc := create_target_labels_cols horizons df h1 h2 h3
  refine ⟨hc, ?_, ?_, ?_⟩
  · intro name hn
    have hx : create_target_labels df horizons =
        DF.mk (df.cols ++ labelColsSpec (df.getCol "Close") horizons) :=
      congrArg DF.mk hc
    rw [hx]
    exact getCol_append_of_mem df _ _ hn
  · clear hc h1 h2
    induction horizons with
    | nil => simp [labelColsSpec]
    | cons hw rest ih =>
      simp only [labelColsSpec, List.length_cons, ih]
      ring
  · clear hc h1 h2
    induction horizons with
    | nil => intro col hcol; simp [labelColsSpec] at hcol
    | cons hw rest ih =>
      intro col hcol
      rcases List.mem_cons.mp hcol with he | hcol2
      · subst he
        simp [List.length_map, futureReturnCol_length]
      · rcases List.mem_cons.mp hcol2 with he | hcol3
        · subst he
          simp [futureReturnCol_length]
        · exact ih col hcol3

/-- Witness for C10: a three-row close-only frame with horizon 1 keeps its
close column intact in the output. -/
theorem create_target_labels_frame_spec_witness :
    (create_target_labels ⟨[("Close", [some 1, some 2, some 3])]⟩
      [(1, 1)]).getCol "Close" = [some 1, some 2, some 3] :=
  (create_target_labels_frame_spec ⟨[("Close", [some 1, some 2, some 3])]⟩
    [(1, 1)] (by decide) (by decide) (by decide)).2.1 "Close" (by decide)

end KabuPredictor
